import Mathlib

/-!
Shallow embedding of the skyflo run orchestrator
(`src/engine/src/api/agent/{graph,model_node,state}.py`,
`src/engine/src/api/services/{tool_executor,approvals}.py`).

Python dicts with fixed keys become structures, exceptions become
`Except`-style sums, and external effects (the MCP tool registry, the
completion stream, the cooperative stop flag, fresh uuids) become explicit
environment parameters so that each function is a pure Lean function of its
inputs.  Event emission (the `sse_publish` / `event_callback` side channel) is
modelled only where a claim mentions it (retry notices, the completion
event); elsewhere events do not influence control flow and are omitted.
-/

namespace Skyflo

/-- Argument map for a tool call (Python `Dict[str, Any]`); only the keys and
string renderings of values are relevant to the embedded code paths. -/
abbrev Args := List (String × String)

/-- A normalized content block. In Python these are dicts
`{"type": ..., "text": ...}`; all blocks constructed by the embedded code
paths carry a `type` tag and (for text blocks) a `text` payload. -/
structure ContentBlock where
  type : String
  text : String
deriving Repr, DecidableEq

/-- Build a `{"type": "text", "text": s}` block. -/
def textBlock (s : String) : ContentBlock := ⟨"text", s⟩

/-- Python `str(block)` for a non-text block, as the gate renders unknown
block shapes (`graph.py` line 237, `result_content += str(block)`). -/
def strBlock (b : ContentBlock) : String :=
  "\x7b'type': '" ++ b.type ++ "', 'text': '" ++ b.text ++ "'\x7d"

/-- A tool call pending execution, as stored in `pending_tools`
(`{"id": ..., "name": ..., "args": ...}`, built in `model_node.py` line 366).
`id` is `Option` because the gate reads it with `tool_call.get("id")`. -/
structure ToolCall where
  id : Option String
  name : String
  args : Args
deriving Repr, DecidableEq

/-- A formatted tool call as embedded in an assistant message
(`{"id", "type": "function", "function": {"name", "arguments"}}`,
`model_node.py` lines 322-328). The constant `"type": "function"` field is
omitted. -/
structure FormattedCall where
  id : String
  fname : String
  farguments : String
deriving Repr, DecidableEq

/-- A transcript message. Python messages are dicts with a `role` and
`content` key, plus optional `tool_call_id` / `name` / `tool_calls` keys. -/
structure Msg where
  role : String
  content : String
  tool_call_id : Option String := none
  name : Option String := none
  tool_calls : List FormattedCall := []
deriving Repr, DecidableEq

/-- The `annotations` dict of a tool's metadata; `readOnlyHint` is read with
`annotations.get("readOnlyHint", False)` (`approvals.py` line 26). -/
structure MetaAnnos where
  readOnlyHint : Option Bool
deriving Repr, DecidableEq

/-- Tool metadata as served by the tools cache.  `annos` models the
`"annotations"` dict (`Option` because it is read with
`.get("annotations", {})`), `inputSchemaRequired` collapses
`(meta.get("inputSchema") or meta.get("input_schema"))` followed by a
`"required"` key lookup (`tool_executor.py` lines 350-352): `none` when the
schema or the `required` key is absent, `some l` for the required-parameter
list. -/
structure ToolMeta where
  title : Option String
  annos : Option MetaAnnos
  inputSchemaRequired : Option (List String)
deriving Repr, DecidableEq

/-- Truthiness of `annotations.get("readOnlyHint", False)` for a metadata
dict: missing `annotations` and missing `readOnlyHint` both default to
`False`. -/
def readOnlyHintOf (m : ToolMeta) : Bool :=
  ((m.annos.getD ⟨none⟩).readOnlyHint).getD false

/-- Result of one invocation of a tool-metadata fetcher
(`Callable[[str], Awaitable[Optional[Dict]]]`): the call can raise, return
`None`, or return a metadata dict. -/
inductive FetchResult where
  | raised (msg : String)
  | ok (meta : Option ToolMeta)
deriving Repr, DecidableEq

/-- Embeds `ApprovalService.need_approval` (`approvals.py` lines 16-32): no fetcher,
a raising fetcher, absent metadata, or a metadata dict without a truthy
`readOnlyHint` all yield `True`; only an explicit read-only annotation yields
`False`.  `args` is accepted but (as in the source) unused. -/
def need_approval (fetcher : Option (String → FetchResult)) (tool : String)
    (args : Args) : Bool :=
  match fetcher with
  | none => true
  | some f =>
    match f tool with
    | .raised _ => true
    | .ok none => true
    | .ok (some m) => !(readOnlyHintOf m)

/-- Embeds `ToolExecutor._validate_tool_parameters` (`tool_executor.py` lines
342-361), with the already-fetched metadata supplied (`tool_schema =
tool_metadata or await self._get_tool_metadata(name)`; the cache returns the
same metadata on a refetch). -/
def validateToolParameters (name : String) (args : Args)
    (toolMetadata : Option ToolMeta) : Option String :=
  match toolMetadata with
  | none => some ("Tool '" ++ name ++ "' not found in available tools")
  | some schema =>
    match schema.inputSchemaRequired with
    | none => none
    | some required =>
      if required.isEmpty then none
      else
        let missing := required.filter (fun p => (args.lookup p).isNone)
        if missing.isEmpty then none
        else some ("Missing required parameters: " ++ String.intercalate ", " missing)

/-- An element of a list-shaped `result` field: either a dict carrying a
`type` key (kept as a block) or anything else (stringified). -/
inductive ToolResultItem where
  | typed (b : ContentBlock)
  | plain (s : String)
deriving Repr, DecidableEq

/-- Shape of the `result` field of a tool result dict
(`tool_executor.py` lines 272-287). -/
inductive ToolResultVal where
  | rstr (s : String)
  | rdict (dumps : String)
  | rlist (items : List ToolResultItem)
  | rother (s : String)
deriving Repr, DecidableEq

/-- Shape of the value returned by `mcp_client.call_tool`: a dict with
optional `isError` / `content` / `result` keys, or a non-dict value.
`dumps` carries `json.dumps(result, indent=2)` for the no-known-key dict
fallback (`tool_executor.py` line 289). -/
inductive ToolResult where
  | pyDict (isError : Bool) (content : Option (List ContentBlock))
      (resultField : Option ToolResultVal) (dumps : String)
  | nonDict (s : String)
deriving Repr, DecidableEq

/-- Outcome of `ToolExecutor.execute`: either the `ApprovalPending`
control-flow exception (`tool_executor.py` lines 136-140, raised at line 195
and re-raised at lines 308-309) or a normal return carrying content blocks. -/
inductive ExecOut where
  | pending (callId : String) (tool : String)
  | ok (blocks : List ContentBlock)
deriving Repr, DecidableEq

/-- Environment of one `ToolExecutor.execute` call: every external effect the
body performs, as a value.
* `metadata` — result of `self._get_tool_metadata(name)`; that helper catches
  its own exceptions and returns `None` (`tool_executor.py` lines 58-63), so
  it cannot raise.  The same cached value serves the later
  `approvals.need_approval` fetch (the approval service's fetcher is wired to
  `self._get_tool_metadata`, lines 39-43).
* `inject` — result of `inject_integration_tool_params`: it can raise (the
  integration lookup is awaited bare), or return the possibly-rewritten args
  together with an optional integration error string (which the caller turns
  into one text block, lines 101-116).
* `callTool` — `mcp_client.call_tool` on the injected args: may raise.
* `fresh` — the `str(uuid.uuid4())` fallback for a missing call id. -/
structure ExecEnv where
  metadata : Option ToolMeta
  inject : Except String (Args × Option String)
  callTool : Args → Except String ToolResult
  fresh : String

/-- Python `str.strip()`: remove leading and trailing whitespace
(structurally recursive so that it evaluates by reduction). -/
def pyStrip (s : String) : String :=
  ⟨((s.data.dropWhile Char.isWhitespace).reverse.dropWhile Char.isWhitespace).reverse⟩

/-- Embeds `call_id = (call_id or str(uuid.uuid4())).strip()` (`tool_executor.py`
line 150); Python `or` treats the empty string as falsy. -/
def finalCallId (callId : Option String) (fresh : String) : String :=
  pyStrip (match callId with
           | none => fresh
           | some s => if s = "" then fresh else s)

/-- Error-message extraction for a failed tool result (`tool_executor.py`
lines 245-252): join the text parts of the `content` blocks, defaulting to
`"Tool execution failed"` when there are none (`result.get("content")` is
also falsy for an empty list). -/
def toolErrorMessage (content : Option (List ContentBlock)) : String :=
  match content with
  | none => "Tool execution failed"
  | some blocks =>
    let parts := (blocks.filter (fun b => b.type = "text")).map (·.text)
    if parts.isEmpty then "Tool execution failed"
    else String.intercalate "\n" parts

/-- Normalization of a successful (non-error) tool result into content
blocks (`tool_executor.py` lines 268-291). -/
def contentBlocksOf (r : ToolResult) : List ContentBlock :=
  match r with
  | .pyDict _ (some blocks) _ _ => blocks
  | .pyDict _ none (some v) _ =>
    match v with
    | .rstr s => [textBlock s]
    | .rdict dumps => [textBlock dumps]
    | .rlist items =>
      items.map (fun it =>
        match it with
        | .typed b => b
        | .plain s => textBlock s)
    | .rother s => [textBlock s]
  | .pyDict _ none none dumps => [textBlock dumps]
  | .nonDict s => [textBlock s]

/-- The tool-invocation phase of `execute` (`tool_executor.py` lines
224-306): call the tool, then either report the tool-declared error as one
text block or normalize the result.  The `Bool` records that
`mcp_client.call_tool` was reached (the "tool was invoked" observable). -/
def invokePhase (env : ExecEnv) (args : Args) : Except String ExecOut × Bool :=
  match env.callTool args with
  | .error e => (.error e, true)
  | .ok r =>
    match r with
    | .pyDict true content _ _ =>
      (.ok (.ok [textBlock ("Tool error: " ++ toolErrorMessage content)]), true)
    | _ => (.ok (.ok (contentBlocksOf r)), true)

/-- Body of `ToolExecutor.execute` inside its outer `try` (`tool_executor.py`
lines 152-306), as an exception-transparent computation; the `Bool` tracks
whether `mcp_client.call_tool` was invoked. -/
def executeTry (env : ExecEnv) (decisions : List (String × Bool)) (name : String)
    (args : Args) (cid : String) : Except String ExecOut × Bool :=
  match env.inject with
  | .error e => (.error e, false)
  | .ok (args2, some integrationError) =>
    (.ok (.ok [textBlock integrationError]), false)
  | .ok (args2, none) =>
    match validateToolParameters name args2 env.metadata with
    | some validationError =>
      (.ok (.ok [textBlock ("Tool validation failed: " ++ validationError)]), false)
    | none =>
      if need_approval (some (fun _ => .ok env.metadata)) name args2 then
        match decisions.lookup cid with
        | none => (.ok (.pending cid name), false)
        | some false =>
          (.ok (.ok [textBlock "Tool call was denied by the user"]), false)
        | some true => invokePhase env args2
      else invokePhase env args2

/-- Embeds `ToolExecutor.execute` (`tool_executor.py` lines 142-324): the outer
handler re-raises `ApprovalPending` and converts every other exception into a
single text block `"Error executing {name}: {e}"`.  Returns the outcome and
whether the underlying tool was invoked. -/
def execute (env : ExecEnv) (decisions : List (String × Bool)) (name : String)
    (args : Args) (callId : Option String) : ExecOut × Bool :=
  match executeTry env decisions name args (finalCallId callId env.fresh) with
  | (.ok out, invoked) => (out, invoked)
  | (.error e, invoked) =>
    (.ok [textBlock ("Error executing " ++ name ++ ": " ++ e)], invoked)

/-- The graph state (`AgentState`, `state.py` lines 9-26).  Fields that no
embedded code path reads (`user_id`, `retry_count`, `max_retries`, and the
wall-clock bookkeeping `start_time`/`end_time`/`duration`) are omitted;
`auto_continue_turns` is a Python `int`, kept as `Int`. -/
structure RunState where
  run_id : String
  messages : List Msg
  pending_tools : List ToolCall
  done : Bool := false
  conversation_id : Option String := none
  error : Option String := none
  auto_continue_turns : Int := 0
  awaiting_approval : Bool := false
  suppress_pending_event : Bool := false
  ttft_emitted : Bool := false
  approval_decisions : List (String × Bool) := []
deriving Repr, DecidableEq

/-- A partial state update as returned by a graph node: present keys only.
LangGraph merges `messages` with `operator.add` (append, per the
`Annotated[..., operator.add]` field of `AgentState`) and overwrites every
other present key. -/
structure StateUpdate where
  messages : Option (List Msg) := none
  pending_tools : Option (List ToolCall) := none
  awaiting_approval : Option Bool := none
  auto_continue_turns : Option Int := none
  ttft_emitted : Option Bool := none
  error : Option String := none
  done : Option Bool := none
  suppress_pending_event : Option Bool := none
deriving Repr, DecidableEq

/-- Merge a node's update into the state: `messages` appends, all other
present keys replace. -/
def applyUpdate (s : RunState) (u : StateUpdate) : RunState :=
  { s with
    messages := s.messages ++ u.messages.getD []
    pending_tools := u.pending_tools.getD s.pending_tools
    awaiting_approval := u.awaiting_approval.getD s.awaiting_approval
    auto_continue_turns := u.auto_continue_turns.getD s.auto_continue_turns
    ttft_emitted := u.ttft_emitted.getD s.ttft_emitted
    error := match u.error with | some e => some e | none => s.error
    done := u.done.getD s.done
    suppress_pending_event := u.suppress_pending_event.getD s.suppress_pending_event }

/-- Rendering of execute's content blocks into the tool message content
(`graph.py` lines 232-237): text blocks contribute their text, anything else
its `str()`. -/
def renderBlocks (blocks : List ContentBlock) : String :=
  blocks.foldl (fun acc b => acc ++ (if b.type = "text" then b.text else strBlock b)) ""

/-- Environment for the processing of one pending tool call inside the gate
loop: the `execute` environment for that call, and an optional exception
raised by the rest of the per-call block (the `except Exception as
tool_error` channel, `graph.py` lines 256-266; `execute` itself only ever
raises `ApprovalPending`). -/
structure GateCallEnv where
  exec : ExecEnv
  crash : Option String := none

/-- Environment for one `_gate_node` run: a per-index call environment plus
an optional batch-level exception (the outer `except Exception` channel,
`graph.py` lines 275-289, which also captures a `StopRequested` from the
gate's own `check_stop`, since that handler catches every `Exception`). -/
structure GateEnv where
  calls : Nat → GateCallEnv
  outerCrash : Option String := none

/-- The per-call loop of `_gate_node` (`graph.py` lines 213-273).  `idx` is
the position of the head of `remaining` in the original batch; `msgs`
accumulates tool messages and `invoked` the indices whose underlying tool was
invoked.  On `ApprovalPending` the update returns the accumulated messages,
the un-processed suffix (`pending_tools[idx:]`, which is exactly
`remaining`), `awaiting_approval=True` and `auto_continue_turns=0`
(lines 247-255). -/
def gateLoop (genv : GateEnv) (decisions : List (String × Bool)) :
    List ToolCall → Nat → List Msg → List Nat → StateUpdate × List Nat
  | [], _, msgs, invoked =>
    ({ messages := some msgs, pending_tools := some [],
       awaiting_approval := some false, suppress_pending_event := some false },
     invoked)
  | c :: rest, idx, msgs, invoked =>
    match (genv.calls idx).crash with
    | some e =>
      let errMsg : Msg :=
        { role := "tool", tool_call_id := c.id, name := some c.name,
          content := "Error executing tool " ++ c.name ++ ": " ++ e }
      gateLoop genv decisions rest (idx + 1) (msgs ++ [errMsg]) invoked
    | none =>
      match execute (genv.calls idx).exec decisions c.name c.args c.id with
      | (.pending _ _, _) =>
        ({ messages := some msgs, pending_tools := some (c :: rest),
           awaiting_approval := some true, auto_continue_turns := some 0,
           suppress_pending_event := some false },
         invoked)
      | (.ok blocks, didInvoke) =>
        let toolMsg : Msg :=
          { role := "tool", tool_call_id := c.id, name := some c.name,
            content := renderBlocks blocks }
        gateLoop genv decisions rest (idx + 1) (msgs ++ [toolMsg])
          (invoked ++ if didInvoke then [idx] else [])

/-- Embeds `_gate_node` (`graph.py` lines 153-289), returning the state update and
the list of batch indices whose underlying tool was invoked.  The batch-level
exception path produces one assistant-role error message and clears
`pending_tools` (lines 275-289); an empty batch is a no-op returning cleared
state (lines 157-159). -/
def gateNodeUpdate (genv : GateEnv) (s : RunState) : StateUpdate × List Nat :=
  match genv.outerCrash with
  | some e =>
    ({ messages := some [{ role := "assistant", name := none,
                           content := "Error in tool execution gate: " ++ e }],
       pending_tools := some [], error := some e,
       suppress_pending_event := some false },
     [])
  | none =>
    if s.pending_tools.isEmpty then
      ({ pending_tools := some [], suppress_pending_event := some false }, [])
    else
      gateLoop genv s.approval_decisions s.pending_tools 0 [] []

/-- Embeds `_entry_node` (`graph.py` lines 123-128): reset `ttft_emitted` and clear
`awaiting_approval` when it was set. -/
def entryUpdate (s : RunState) : StateUpdate :=
  { ttft_emitted := some false
    awaiting_approval := if s.awaiting_approval then some false else none }

/-- Embeds `_final_node` (`graph.py` lines 291-308): mark the run done (the
wall-clock `end_time`/`duration` bookkeeping is outside the embedded state)
and emit the `completed` event with `status="completed"`. -/
def finalUpdate : StateUpdate := { done := some true }

/-- Truthiness of an optional string (Python: `None` and `""` are falsy). -/
def truthyStr (o : Option String) : Bool :=
  !(o.getD "").isEmpty

/-- One tool-call delta inside a stream chunk (`model_node.py` lines
236-263): an integer `index` plus optional `id`, `function.name` and
`function.arguments` fragments.  Deltas lacking an `index` are skipped by the
source (line 237) and are not modelled. -/
structure Delta where
  index : Nat
  id : Option String := none
  name : Option String := none
  dargs : Option String := none
deriving Repr, DecidableEq

/-- One stream chunk, reduced to the fields the consumer loop reads: an
optional content delta and the tool-call deltas.  A chunk with no `choices`
behaves exactly like `content = none, toolCalls = []` (`model_node.py` lines
209-210); the usage payload feeds only events and is omitted. -/
structure Chunk where
  content : Option String := none
  toolCalls : List Delta := []
deriving Repr, DecidableEq

/-- The per-index accumulator of the tool-call buffer
(`{"id": "", "name": "", "arguments": ""}`, `model_node.py` line 243). -/
structure Acc where
  id : String := ""
  name : String := ""
  arguments : String := ""
deriving Repr, DecidableEq

/-- The index-keyed tool-call buffer; a Python dict iterated in insertion
order, modelled as an insertion-ordered association list. -/
abbrev Buffer := List (Nat × Acc)

/-- Fold one delta into an accumulator (`model_node.py` lines 245-263): the
`id` takes the first non-empty fragment, `name` and `arguments` concatenate
every truthy fragment. -/
def applyDelta (a : Acc) (d : Delta) : Acc :=
  { id := if truthyStr d.id ∧ a.id = "" then d.id.getD "" else a.id
    name := a.name ++ (if truthyStr d.name then d.name.getD "" else "")
    arguments := a.arguments ++ (if truthyStr d.dargs then d.dargs.getD "" else "") }

/-- Association lookup on the buffer (Python `index in tool_calls_buffer` /
`tool_calls_buffer[index]`). -/
def bufLookup : Buffer → Nat → Option Acc
  | [], _ => none
  | (k, a) :: rest, i => if i = k then some a else bufLookup rest i

/-- Fold one delta into the buffer (`model_node.py` lines 240-263): create
the entry on first sight of the index, then apply the fragment. -/
def updBuffer (buf : Buffer) (d : Delta) : Buffer :=
  (if (bufLookup buf d.index).isSome then buf
   else buf ++ [(d.index, ⟨"", "", ""⟩)]).map
    (fun p => if p.1 = d.index then (p.1, applyDelta p.2 d) else p)

/-- How the stream-consumption loop ended: normally, by a raised
`StopRequested` from the cancellation poll, or by a provider error after the
consumed chunks. -/
inductive StreamExit where
  | done
  | stopRequested
  | streamErr (msg : String)
deriving Repr, DecidableEq

/-- The stream-consumption loop of `run_model_turn` (`model_node.py` lines
200-263).  At the top of each iteration, when `run_id` is truthy and
`tokens_generated % 25 == 0`, the cancellation flag is polled (`stopFlag i`
is the flag's value at the i-th chunk) and `StopRequested` is raised if set;
then the content delta is appended (counting one generated token per truthy
delta) and the tool-call deltas are folded into the buffer.  `tail` is an
error the provider stream raises after the given chunks, if any.  Returns the
content buffer, the tool-call buffer, and how the loop exited. -/
def contentStep (c : Option String) (cbuf : String) (tokens : Nat) :
    String × Nat :=
  match c with
  | some s => if s ≠ "" then (cbuf ++ s, tokens + 1) else (cbuf, tokens)
  | none => (cbuf, tokens)

def consumeStream (runId : Option String) (stopFlag : Nat → Bool) :
    List Chunk → Option String → Nat → Nat → String → Buffer →
    String × Buffer × StreamExit
  | [], tail, _, _, cbuf, buf =>
    (cbuf, buf, match tail with | some e => .streamErr e | none => .done)
  | c :: rest, tail, i, tokens, cbuf, buf =>
    if truthyStr runId ∧ tokens % 25 = 0 ∧ stopFlag i then
      (cbuf, buf, .stopRequested)
    else
      consumeStream runId stopFlag rest tail (i + 1)
        (contentStep c.content cbuf tokens).2
        (contentStep c.content cbuf tokens).1
        (c.toolCalls.foldl updBuffer buf)

/-- Python exceptions relevant to the retry loop: `RateLimitError`,
`StopRequested` (whose `str()` is empty), and anything else. -/
inductive PyExc where
  | rateLimit (msg : String)
  | stopRequested
  | err (msg : String)
deriving Repr, DecidableEq

/-- Python `str(e)` for the embedded exceptions. -/
def msgOf : PyExc → String
  | .rateLimit m => m
  | .stopRequested => ""
  | .err m => m

/-- The substring signatures classifying an error as transient
(`model_node.py` lines 482-492). -/
def transientIndicators : List String :=
  ["timeout", "connection", "network", "503", "502", "504",
   "temporarily unavailable", "try again", "rate limit"]

/-- Embeds `_is_transient_error` (`model_node.py` lines 481-495): any transient
indicator occurs as a substring of the lower-cased error text. -/
def isTransientError (e : PyExc) : Bool :=
  let s := (msgOf e).toLower
  transientIndicators.any (fun ind => (s.splitOn ind).length ≠ 1)

/-- The normal return value of `run_model_turn` (`model_node.py` line 384):
the assistant messages, the parsed pending tool calls, and the updated
`ttft_emitted` flag. -/
structure TurnOk where
  assistantMessages : List Msg
  toolCalls : List ToolCall
  ttftEmitted : Bool
deriving Repr, DecidableEq

/-- Environment of one attempt of the `run_model_turn` retry loop.
* `tools` — the available tool names after the fetch-and-validate
  fallback of lines 136-144 (any failure or invalid schema yields `[]`).
* `messagesValid` — `_validate_messages_format(prepared_messages)`; when
  false the attempt raises `ValueError("Invalid message format detected")`.
* `completion` — the `acompletion` call: a raised exception, or the stream's
  chunks plus an optional error the stream raises after them.
* `stopFlag` — the cancellation flag as sampled at each chunk poll.
* `freshAssign`/`freshPending` — the `call_{uuid4().hex}` fallbacks of lines
  319 and 365, by buffer position.
* `parse` — the argument-string decoding pipeline of lines 345-363
  (`json.loads`, the `_fix_json_arguments` repair pass, and the empty-dict
  default), which no claim inspects internally. -/
structure AttemptEnv where
  tools : List String
  messagesValid : Bool
  completion : Except PyExc (List Chunk × Option String)
  stopFlag : Nat → Bool
  freshAssign : Nat → String
  freshPending : Nat → String
  parse : String → Args

/-- The id-assignment pass over the buffer (`model_node.py` lines 317-329):
each buffered call gets `(id or fresh uuid).strip()`, written back into the
buffer so the later pending-call pass reuses it. -/
def assignIds (fresh : Nat → String) (buf : Buffer) : Buffer :=
  buf.enum.map (fun p =>
    (p.2.1, { p.2.2 with id := pyStrip (if p.2.2.id = "" then fresh p.1 else p.2.2.id) }))

/-- The formatted tool calls attached to the assistant message
(`model_node.py` lines 317-330): stripped name, `arguments or "{}"`. -/
def formattedCalls (buf : Buffer) : List FormattedCall :=
  buf.map (fun p =>
    { id := p.2.id, fname := pyStrip p.2.name
      farguments := if p.2.arguments = "" then "\x7b\x7d" else p.2.arguments })

/-- The pending-tool-call pass (`model_node.py` lines 335-370): skip calls
with a blank name or a name absent from the available tools, decode the
argument string (empty string means no arguments), and keep the id assigned
during formatting (falling back to a fresh uuid if it stripped to empty). -/
def pendingCalls (parse : String → Args) (fresh : Nat → String)
    (tools : List String) (buf : Buffer) : List ToolCall :=
  buf.enum.filterMap (fun p =>
    let tname := pyStrip p.2.2.name
    if tname = "" then none
    else if ¬ tools.contains tname then none
    else
      some { id := some (pyStrip (if p.2.2.id = "" then fresh p.1 else p.2.2.id))
             name := tname
             args := if p.2.2.arguments = "" then [] else parse p.2.2.arguments })

/-- Stream finalization (`model_node.py` lines 311-384): build the assistant
message (kept only when it has content or tool calls) and the pending tool
calls.  `ttft` is the already-computed outgoing `ttft_emitted` value. -/
def finalizeTurn (env : AttemptEnv) (cbuf : String) (buf : Buffer)
    (ttft : Bool) : TurnOk :=
  let buf' := assignIds env.freshAssign buf
  let fmt := formattedCalls buf'
  let amsg : Msg :=
    { role := "assistant", content := cbuf
      tool_calls := if buf'.isEmpty then [] else fmt }
  { assistantMessages := if cbuf ≠ "" ∨ ¬ buf'.isEmpty then [amsg] else []
    toolCalls := pendingCalls env.parse env.freshPending env.tools buf'
    ttftEmitted := ttft }

/-- One attempt of `run_model_turn` (`model_node.py` lines 134-384, one
iteration of the `while` loop).  The stream handler of lines 265-268 swallows
any exception raised mid-stream — including `StopRequested` from the
cancellation poll — whenever some content or tool-call fragment is already
buffered, and finalizes the partial turn instead.  The one-time TTFT event
fires when a first fragment arrives while `ttft_emitted` is still false and a
start time is known (lines 120-132). -/
def runAttempt (env : AttemptEnv) (runId : Option String)
    (startTimeKnown prevTtft : Bool) : Except PyExc TurnOk :=
  if ¬ env.messagesValid then .error (.err "Invalid message format detected")
  else
    match env.completion with
    | .error e => .error e
    | .ok (chunks, tail) =>
      let r := consumeStream runId env.stopFlag chunks tail 0 0 "" []
      let cbuf := r.1
      let buf := r.2.1
      let ttft := prevTtft ∨ (startTimeKnown ∧ (cbuf ≠ "" ∨ ¬ buf.isEmpty))
      match r.2.2 with
      | .done => .ok (finalizeTurn env cbuf buf ttft)
      | .stopRequested =>
        if cbuf = "" ∧ buf.isEmpty then .error .stopRequested
        else .ok (finalizeTurn env cbuf buf ttft)
      | .streamErr m =>
        if cbuf = "" ∧ buf.isEmpty then .error (.err m)
        else .ok (finalizeTurn env cbuf buf ttft)

/-- A retry-notice event (`model_node.py` lines 396-404 and 420-429). -/
structure RetryEvent where
  etype : String
  attempt : Nat
  retryIn : Nat
deriving Repr, DecidableEq

/-- The full outcome of `run_model_turn`: the returned value or the raised
exception, together with the backoff sleeps performed and the retry-notice
events emitted. -/
structure TurnRun where
  result : Except PyExc TurnOk
  waits : List Nat
  events : List RetryEvent
deriving Repr

/-- The retry loop of `run_model_turn` (`model_node.py` lines 134 and
386-437).  `fuel` is `max_retries + 1 - retry_count`, the number of loop
iterations still permitted; a rate-limit error backs off
`min(60, 2^retry_count)` seconds and retries while `retry_count ≤
max_retries`, any other error does so with cap 30 only when classified
transient, and an exhausted or non-transient error is re-raised as-is.  The
fall-through raise of lines 436-437 (`last_exception or Exception(...)`) is
only reachable when the loop body never runs. -/
def turnLoop (envs : Nat → AttemptEnv) (runId : Option String)
    (startTimeKnown ttftIn : Bool) (maxRetries : Nat) :
    Nat → Nat → Option PyExc → List Nat → List RetryEvent → TurnRun
  | 0, _, lastExc, waits, events =>
    { result := .error (lastExc.getD (.err "Model turn failed after maximum retries"))
      waits := waits, events := events }
  | fuel + 1, retryCount, lastExc, waits, events =>
    match runAttempt (envs retryCount) runId startTimeKnown ttftIn with
    | .ok t => { result := .ok t, waits := waits, events := events }
    | .error e =>
      let rc := retryCount + 1
      match e with
      | .rateLimit m =>
        if rc ≤ maxRetries then
          let w := min 60 (2 ^ rc)
          turnLoop envs runId startTimeKnown ttftIn maxRetries fuel rc
            (some (.rateLimit m)) (waits ++ [w]) (events ++ [⟨"rate_limit", rc, w⟩])
        else { result := .error (.rateLimit m), waits := waits, events := events }
      | other =>
        if isTransientError other ∧ rc ≤ maxRetries then
          let w := min 30 (2 ^ rc)
          turnLoop envs runId startTimeKnown ttftIn maxRetries fuel rc
            (some other) (waits ++ [w]) (events ++ [⟨"transient_error", rc, w⟩])
        else { result := .error other, waits := waits, events := events }

/-- Embeds `run_model_turn` (`model_node.py` lines 106-437), with the retry ceiling
defaulting to 3 as in the source signature. -/
def run_model_turn (envs : Nat → AttemptEnv) (runId : Option String)
    (startTimeKnown ttftIn : Bool) (maxRetries : Nat := 3) : TurnRun :=
  turnLoop envs runId startTimeKnown ttftIn maxRetries (maxRetries + 1) 0 none [] []

/-- The four nodes of the compiled graph (`graph.py` lines 78-81). -/
inductive Node where
  | entry
  | model
  | gate
  | final
deriving Repr, DecidableEq

/-- Embeds `route_after_model` (`graph.py` lines 26-36). -/
def route_after_model (s : RunState) : Node :=
  if ¬ s.pending_tools.isEmpty then .gate
  else if s.auto_continue_turns > 0 then .model
  else .final

/-- Embeds `route_from_entry` (`graph.py` lines 39-43). -/
def route_from_entry (s : RunState) : Node :=
  if ¬ s.pending_tools.isEmpty then .gate else .model

/-- Embeds `route_after_gate` (`graph.py` lines 46-49). -/
def route_after_gate (s : RunState) : Node :=
  if s.awaiting_approval then .final else .model

/-- The next-speaker judgment's answer (`decide_next_speaker`,
`model_node.py` lines 34-103): `Literal["user", "model"]`, with any judgment
failure already collapsed to `user` inside that function (line 103). -/
inductive Speaker where
  | user
  | model
deriving Repr, DecidableEq

/-- Environment of one `ModelNode.__call__` (`model_node.py` lines 507-591):
the stop flag sampled by its own `should_stop` check, the outcome of
`run_model_turn`, the next-speaker judgment, and the configured
`MAX_AUTO_CONTINUE_TURNS` ceiling (default 2, `settings.py` line 35). -/
structure MNodeEnv where
  stop : Bool := false
  turn : Except PyExc TurnOk
  judge : Speaker := .user
  maxAuto : Int := 2

/-- The update dict built by `ModelNode.__call__`: the keys it may set. -/
structure MNodeUpdate where
  messages : Option (List Msg) := none
  pending_tools : Option (List ToolCall) := none
  error : Option String := none
  ttft_emitted : Option Bool := none
  auto_continue_turns : Option Int := none
deriving Repr, DecidableEq

/-- Embeds `ModelNode.__call__` (`model_node.py` lines 507-591).  Its trailing
`except Exception` (line 580) catches everything raised inside — including
the `StopRequested` of its own stop check at line 511, whose `str()` is empty
— and converts it into an error update.  When the turn produced no tool calls
the next-speaker judgment runs; an answer of `model` with no pending approval
appends a synthetic "Please continue." user turn and increments
`auto_continue_turns` capped at the ceiling, while every other successful
branch decrements a positive counter by one (lines 513-516 and 575-576). -/
def modelNodeCall (env : MNodeEnv) (s : RunState) : MNodeUpdate :=
  if env.stop then
    { messages := some [{ role := "assistant", content := "Error in model turn: " }]
      pending_tools := some [], error := some "" }
  else
    let autoTurns := s.auto_continue_turns
    if s.messages.isEmpty then
      { messages := some [], pending_tools := some []
        error := some "No messages provided" }
    else
      match env.turn with
      | .error e =>
        { messages := some [{ role := "assistant"
                              content := "Error in model turn: " ++ msgOf e }]
          pending_tools := some [], error := some (msgOf e) }
      | .ok t =>
        let base : MNodeUpdate :=
          { messages := some t.assistantMessages
            ttft_emitted := if t.ttftEmitted then some true else none }
        if ¬ t.toolCalls.isEmpty then
          let b := { base with pending_tools := some t.toolCalls }
          if autoTurns > 0 then
            { b with auto_continue_turns := some (max 0 (autoTurns - 1)) }
          else b
        else
          match env.judge with
          | .model =>
            if s.awaiting_approval then
              { base with
                pending_tools := some []
                auto_continue_turns :=
                  if autoTurns > 0 then some (max 0 (autoTurns - 1)) else none }
            else
              { base with
                messages := some (t.assistantMessages ++
                  [{ role := "user", content := "Please continue." }])
                pending_tools := some []
                auto_continue_turns := some (min (autoTurns + 1) env.maxAuto) }
          | .user =>
            let b := { base with pending_tools := some [] }
            if autoTurns > 0 then
              { b with auto_continue_turns := some (max 0 (autoTurns - 1)) }
            else b

/-- Embeds `_model_node` (`graph.py` lines 130-151): forward only the `messages`,
`pending_tools`, `error` and `ttft_emitted` keys of the result of
`ModelNode.__call__` into the graph state; in particular any
`auto_continue_turns` key it computed is dropped. -/
def modelGraphUpdate (env : MNodeEnv) (s : RunState) : StateUpdate :=
  let r := modelNodeCall env s
  { messages := r.messages, pending_tools := r.pending_tools
    error := r.error, ttft_emitted := r.ttft_emitted }

/-- One transition of the compiled state machine: each node applies its
update to the state and the conditional edges pick the next node
(`graph.py` lines 75-95).  `final`'s outgoing edge goes to `END`; it is
modelled as a self-loop carrying the final update, which changes nothing
after the first visit. -/
inductive Step : Node → RunState → Node → RunState → Prop where
  | entry (s s' : RunState) (h : s' = applyUpdate s (entryUpdate s)) :
      Step .entry s (route_from_entry s') s'
  | model (env : MNodeEnv) (s s' : RunState)
      (h : s' = applyUpdate s (modelGraphUpdate env s)) :
      Step .model s (route_after_model s') s'
  | gate (env : GateEnv) (s s' : RunState)
      (h : s' = applyUpdate s (gateNodeUpdate env s).1) :
      Step .gate s (route_after_gate s') s'
  | final (s s' : RunState) (h : s' = applyUpdate s finalUpdate) :
      Step .final s .final s'

/-- States reachable by the machine from an initial state handed to `entry`
(every `invoke` enters through `START → entry`, `graph.py` line 83), where
the initial state already satisfies the `awaiting_approval`-implies-pending
invariant (as every state built by `run_agent_workflow` does: fresh runs
start with both cleared, resumptions carry the paused non-empty batch). -/
inductive Reachable : Node → RunState → Prop where
  | init (s : RunState) (h : s.awaiting_approval = true → s.pending_tools ≠ []) :
      Reachable .entry s
  | step {n : Node} {s : RunState} {n' : Node} {s' : RunState}
      (hr : Reachable n s) (hs : Step n s n' s') : Reachable n' s'

/-- Per-step environment for a concrete machine execution: the stop flag as
sampled by the `check_stop` calls at the head of `_entry_node` and
`_model_node` (both of which let `StopRequested` propagate to `invoke`), and
the node environments.  The gate's own `check_stop` is part of `GateEnv`:
its `StopRequested` is caught by the gate's blanket exception handler
(`graph.py` line 275), which is `outerCrash` with an empty message. -/
structure StepEnv where
  stopAtEntry : Bool := false
  stopAtModel : Bool := false
  model : MNodeEnv
  gate : GateEnv

/-- Outcome of one `WorkflowGraph.invoke`: the `final` node's `completed`
event with `status="completed"` (`graph.py` lines 297-306), the
`StopRequested` handler's `completed` event with `status="stopped"`
(`graph.py` lines 339-359), or the recursion-limit path. -/
inductive RunOutcome where
  | completed (s : RunState)
  | stopped
  | outOfFuel
deriving Repr

/-- The `status` field of the completion event for a finished run. -/
def statusOf : RunOutcome → String
  | .completed _ => "completed"
  | .stopped => "stopped"
  | .outOfFuel => "error"

/-- Deterministic execution of the compiled machine under a per-step
environment, starting at `entry`; `fuel` bounds the node visits (the
`recursion_limit`, default 25). -/
def runMachine (envs : Nat → StepEnv) : Nat → Nat → Node → RunState → RunOutcome
  | 0, _, _, _ => .outOfFuel
  | _ + 1, i, .final, s => .completed (applyUpdate s finalUpdate)
  | fuel + 1, i, .entry, s =>
    if (envs i).stopAtEntry then .stopped
    else
      let s' := applyUpdate s (entryUpdate s)
      runMachine envs fuel (i + 1) (route_from_entry s') s'
  | fuel + 1, i, .model, s =>
    if (envs i).stopAtModel then .stopped
    else
      let s' := applyUpdate s (modelGraphUpdate (envs i).model s)
      runMachine envs fuel (i + 1) (route_after_model s') s'
  | fuel + 1, i, .gate, s =>
    let s' := applyUpdate s (gateNodeUpdate (envs i).gate s).1
    runMachine envs fuel (i + 1) (route_after_gate s') s'

/-! ## Theorems -/

/-- C7: the approval policy returns "no approval required" exactly when a
metadata fetcher is available and its fetch succeeds with metadata whose
`annotations.readOnlyHint` is truthy; in every other case — no fetcher, a
failing fetch, absent metadata, or no read-only annotation — it requires
approval (fail closed), for every tool name and argument map. -/
theorem need_approval_iff_readonly_annotated
    (fetcher : Option (String → FetchResult)) (tool : String) (args : Args) :
    need_approval fetcher tool args = false ↔
      ∃ f m, fetcher = some f ∧ f tool = .ok (some m) ∧ readOnlyHintOf m = true := by
  constructor
  · intro h
    match hf : fetcher with
    | none => simp [need_approval, hf] at h
    | some f =>
      match hm : f tool with
      | .raised m => simp [need_approval, hf, hm] at h
      | .ok none => simp [need_approval, hf, hm] at h
      | .ok (some m) =>
        refine ⟨f, m, rfl, hm, ?_⟩
        simp [need_approval, hf, hm] at h
        exact h
  · rintro ⟨f, m, rfl, hm, hro⟩
    simp [need_approval, hm, hro]

/-- C4: the three routing functions implement exactly the specified
transitions: from Entry to Gate iff `pending_tools` is non-empty, else to
Model; from Model to Gate iff `pending_tools` is non-empty, else to Model iff
`auto_continue_turns > 0`, else to Final; from Gate to Final iff
`awaiting_approval`, else to Model. -/
theorem routing_functions_implement_transitions (s : RunState) :
    (route_from_entry s = .gate ↔ s.pending_tools ≠ []) ∧
    (route_from_entry s = .model ↔ s.pending_tools = []) ∧
    (route_after_model s = .gate ↔ s.pending_tools ≠ []) ∧
    (route_after_model s = .model ↔
      (s.pending_tools = [] ∧ s.auto_continue_turns > 0)) ∧
    (route_after_model s = .final ↔
      (s.pending_tools = [] ∧ ¬ s.auto_continue_turns > 0)) ∧
    (route_after_gate s = .final ↔ s.awaiting_approval = true) ∧
    (route_after_gate s = .model ↔ s.awaiting_approval = false) := by
  unfold route_from_entry route_after_model route_after_gate
  by_cases hp : s.pending_tools = [] <;>
    by_cases hw : s.awaiting_approval = true <;>
      simp_all [List.isEmpty_iff] <;>
        split <;> simp_all

/-- C7 witness: a concrete fetcher serving read-only metadata makes
`need_approval` answer false. -/
theorem need_approval_iff_readonly_annotated_witness :
    need_approval
        (some (fun _ => .ok (some { title := none, annos := some { readOnlyHint := some true },
                                    inputSchemaRequired := none })))
        "get_pods" [] = false :=
  (need_approval_iff_readonly_annotated _ _ _).mpr ⟨_, _, rfl, rfl, rfl⟩

/-- C4 witness: at a concrete awaiting-approval state the gate routes to the
final node. -/
theorem routing_functions_implement_transitions_witness :
    route_after_gate
        ({ run_id := "r", messages := [], pending_tools := []
           awaiting_approval := true } : RunState) = .final :=
  (routing_functions_implement_transitions _).2.2.2.2.2.1.mpr rfl

/-- Metadata of a tool explicitly annotated read-only. -/
def readOnlyMeta : ToolMeta :=
  { title := none, annos := some { readOnlyHint := some true }
    inputSchemaRequired := none }

/-- Metadata of a tool with no read-only annotation (approval required). -/
def writeMeta : ToolMeta :=
  { title := none, annos := none, inputSchemaRequired := none }

/-- Execute environment for a read-only tool whose invocation succeeds. -/
def readOnlyExecEnv : ExecEnv :=
  { metadata := some readOnlyMeta, inject := .ok ([], none)
    callTool := fun _ => .ok (.nonDict "pods listed"), fresh := "u" }

/-- C6 counterexample: a tool call whose recorded approval decision is
negative but whose tool is annotated read-only (so `need_approval` is false)
never consults the decision: `execute` invokes the underlying tool (second
component `true`) and returns its normal result, not a synthesized
"denied by user" block.  This refutes the claim's unconditional "for every
tool call whose approval decision exists and is negative". -/
theorem denied_decision_readonly_tool_still_invoked :
    execute readOnlyExecEnv [("cid", false)] "get_pods" [] (some "cid") =
      (.ok [textBlock "pods listed"], true) := by
  rfl

/-- C6 (amended): for every tool call that requires approval and whose
recorded decision is negative, `execute` synthesizes the "denied by user"
result without invoking the underlying tool, and the gate appends the
corresponding tool message and proceeds to the next call with no invocation
recorded for this one. -/
theorem denied_approval_synthesizes_denial_without_invocation
    (env : ExecEnv) (decisions : List (String × Bool)) (name : String)
    (args args2 : Args) (callId : Option String)
    (hinj : env.inject = .ok (args2, none))
    (hval : validateToolParameters name args2 env.metadata = none)
    (hneed : need_approval (some (fun _ => .ok env.metadata)) name args2 = true)
    (hdec : decisions.lookup (finalCallId callId env.fresh) = some false) :
    execute env decisions name args callId =
      (.ok [textBlock "Tool call was denied by the user"], false) ∧
    ∀ (genv : GateEnv) (idx : Nat) (msgs : List Msg) (invoked : List Nat)
      (rest : List ToolCall),
      (genv.calls idx).crash = none → (genv.calls idx).exec = env →
      gateLoop genv decisions ({ id := callId, name := name, args := args } :: rest)
          idx msgs invoked =
        gateLoop genv decisions rest (idx + 1)
          (msgs ++ [{ role := "tool", tool_call_id := callId, name := some name,
                      content := "Tool call was denied by the user" }]) invoked := by
  have hex : execute env decisions name args callId =
      (.ok [textBlock "Tool call was denied by the user"], false) := by
    unfold execute executeTry
    simp [hinj, hval, hneed, hdec]
  refine ⟨hex, ?_⟩
  intro genv idx msgs invoked rest hcrash hexec
  rw [gateLoop, hcrash, hexec, hex]
  simp [renderBlocks, textBlock]

/-- C6 amended-theorem witness at a concrete input: the denial result for a
tool with no read-only annotation and a recorded `false` decision. -/
theorem denied_approval_synthesizes_denial_without_invocation_witness :
    execute { metadata := some writeMeta, inject := .ok ([], none),
              callTool := fun _ => .ok (.nonDict "ran"), fresh := "u" }
        [("cid", false)] "apply_manifest" [] (some "cid") =
      (.ok [textBlock "Tool call was denied by the user"], false) :=
  (denied_approval_synthesizes_denial_without_invocation
    { metadata := some writeMeta, inject := .ok ([], none),
      callTool := fun _ => .ok (.nonDict "ran"), fresh := "u" }
    [("cid", false)] "apply_manifest" [] [] (some "cid")
    (by rfl) (by rfl) (by rfl) (by rfl)).1

/-- Execute environment whose tool call succeeds with an empty `content`
list (`result = {"content": [], "isError": False}` from the MCP client). -/
def emptyContentExecEnv : ExecEnv :=
  { metadata := some readOnlyMeta, inject := .ok ([], none)
    callTool := fun _ => .ok (.pyDict false (some []) none "d"), fresh := "u" }

/-- C10 counterexample: when the tool's successful result carries
`{"content": []}`, `execute` returns normally with an *empty* list of content
blocks (`tool_executor.py` lines 269-271 assign `content_blocks =
result["content"]` unconditionally), refuting the claim's "returns normally
with a non-empty list of content blocks". -/
theorem execute_returns_empty_blocks_on_empty_content :
    execute emptyContentExecEnv [] "get_pods" [] (some "cid") = (.ok [], true) := by
  rfl

/-- Every branch of `executeTry` ends in a pending signal (carrying the
call id and tool name, with the tool not invoked), a normal block list, or a
propagating exception. -/
theorem executeTry_shape (env : ExecEnv) (decisions : List (String × Bool))
    (name : String) (args : Args) (cid : String) :
    executeTry env decisions name args cid = (.ok (.pending cid name), false) ∨
    (∃ bs b, executeTry env decisions name args cid = (.ok (.ok bs), b)) ∨
    (∃ e b, executeTry env decisions name args cid = (.error e, b)) := by
  unfold executeTry invokePhase
  repeat' split
  all_goals first
    | exact Or.inl rfl
    | exact Or.inr (Or.inl ⟨_, _, rfl⟩)
    | exact Or.inr (Or.inr ⟨_, _, rfl⟩)

/-- C10 (amended): `execute` either raises `ApprovalPending` (never invoking
the tool) or returns normally with a, possibly empty, list of content blocks
(a successful result such as `{"content": []}` or `{"result": []}`
normalizes to `[]`); an exception raised by parameter injection, or by the
tool invocation itself, is caught and converted into a single text block
`"Error executing {name}: {e}"` (metadata lookup and parameter validation
catch their own errors internally and never raise). -/
theorem execute_pending_or_blocks_exceptions_converted
    (env : ExecEnv) (decisions : List (String × Bool)) (name : String)
    (args : Args) (callId : Option String) :
    ((∃ cid, execute env decisions name args callId = (.pending cid name, false)) ∨
      ∃ bs invoked, execute env decisions name args callId = (.ok bs, invoked)) ∧
    (∀ e, env.inject = .error e →
      execute env decisions name args callId =
        (.ok [textBlock ("Error executing " ++ name ++ ": " ++ e)], false)) ∧
    (∀ e args2, env.inject = .ok (args2, none) →
      validateToolParameters name args2 env.metadata = none →
      env.callTool args2 = .error e →
      (need_approval (some (fun _ => .ok env.metadata)) name args2 = false ∨
        decisions.lookup (finalCallId callId env.fresh) = some true) →
      execute env decisions name args callId =
        (.ok [textBlock ("Error executing " ++ name ++ ": " ++ e)], true)) := by
  refine ⟨?_, ?_, ?_⟩
  · rcases executeTry_shape env decisions name args (finalCallId callId env.fresh)
        with h | ⟨bs, b, h⟩ | ⟨e, b, h⟩ <;>
      unfold execute <;> rw [h]
    · exact Or.inl ⟨_, rfl⟩
    · exact Or.inr ⟨bs, b, rfl⟩
    · exact Or.inr ⟨_, b, rfl⟩
  · intro e hinj
    unfold execute executeTry
    simp [hinj]
  · intro e args2 hinj hval hct happroved
    unfold execute executeTry invokePhase
    rcases happroved with h | h
    · simp [hinj, hval, h, hct]
    · by_cases hneed : need_approval (some (fun _ => .ok env.metadata)) name args2 = true
      · simp [hinj, hval, hneed, h, hct]
      · simp only [Bool.not_eq_true] at hneed
        simp [hinj, hval, hneed, hct]

/-- C10 amended-theorem witness: a raising injection at a concrete input is
converted into the error text block. -/
theorem execute_pending_or_blocks_exceptions_converted_witness :
    execute { metadata := none, inject := .error "boom",
              callTool := fun _ => .error "x", fresh := "u" }
        [] "scale_deployment" [] (some "cid") =
      (.ok [textBlock "Error executing scale_deployment: boom"], false) :=
  (execute_pending_or_blocks_exceptions_converted
    { metadata := none, inject := .error "boom",
      callTool := fun _ => .error "x", fresh := "u" }
    [] "scale_deployment" [] (some "cid")).2.1 "boom" rfl

/-- An attempt whose completion call raises a rate-limit error fails with
exactly that error. -/
theorem runAttempt_rateLimit (env : AttemptEnv) (runId : Option String)
    (stk ttft : Bool) (m : String) (hv : env.messagesValid = true)
    (hc : env.completion = .error (.rateLimit m)) :
    runAttempt env runId stk ttft = .error (.rateLimit m) := by
  unfold runAttempt
  rw [hv, hc]
  simp

/-- When every permitted attempt rate-limits, the retry loop performs the
remaining backoffs and finally re-raises the last attempt's error. -/
theorem turnLoop_all_rate_limited (envs : Nat → AttemptEnv) (ms : Nat → String)
    (runId : Option String) (stk ttft : Bool) (maxRetries : Nat)
    (h : ∀ i, i ≤ maxRetries →
      (envs i).messagesValid = true ∧
      (envs i).completion = .error (.rateLimit (ms i))) :
    ∀ (k rc : Nat) (last : Option PyExc) (waits : List Nat)
      (events : List RetryEvent),
      rc + k = maxRetries →
      turnLoop envs runId stk ttft maxRetries (k + 1) rc last waits events =
        { result := .error (.rateLimit (ms maxRetries))
          waits := waits ++ (List.range k).map (fun i => min 60 (2 ^ (rc + i + 1)))
          events := events ++ (List.range k).map
            (fun i => ⟨"rate_limit", rc + i + 1, min 60 (2 ^ (rc + i + 1))⟩) } := by
  intro k
  induction k with
  | zero =>
    intro rc last waits events hrc
    have hrc' : rc = maxRetries := by omega
    obtain ⟨hv, hc⟩ := h rc (by omega)
    rw [turnLoop, runAttempt_rateLimit _ _ _ _ _ hv hc]
    simp [hrc', if_neg (by omega : ¬ rc + 1 ≤ maxRetries)]
  | succ k ih =>
    intro rc last waits events hrc
    obtain ⟨hv, hc⟩ := h rc (by omega)
    rw [turnLoop, runAttempt_rateLimit _ _ _ _ _ hv hc]
    simp only [if_pos (by omega : rc + 1 ≤ maxRetries)]
    rw [ih (rc + 1) _ _ _ (by omega)]
    refine congrArg₂ _ ?_ ?_ <;>
      simp [List.range_succ_eq_map, List.map_map, Function.comp,
        List.append_assoc, Nat.add_assoc, Nat.add_comm, Nat.add_left_comm]

/-- C8: on rate-limit errors the model turn waits `min(60, 2^attempt)`
seconds and retries, emitting a `rate_limit` retry-notice event for each
retry attempt (numbered 1..ceiling), up to the retry ceiling (the
`max_retries` parameter, default 3); after exactly `ceiling` failed retries
the last encountered rate-limit error itself is raised as the turn failure,
not a generic error. -/
theorem rate_limited_turn_retries_and_raises_last_error
    (maxRetries : Nat) (envs : Nat → AttemptEnv) (ms : Nat → String)
    (runId : Option String) (stk ttft : Bool)
    (h : ∀ i, i ≤ maxRetries →
      (envs i).messagesValid = true ∧
      (envs i).completion = .error (.rateLimit (ms i))) :
    run_model_turn envs runId stk ttft maxRetries =
      { result := .error (.rateLimit (ms maxRetries))
        waits := (List.range maxRetries).map (fun i => min 60 (2 ^ (i + 1)))
        events := (List.range maxRetries).map
          (fun i => ⟨"rate_limit", i + 1, min 60 (2 ^ (i + 1))⟩) } := by
  have := turnLoop_all_rate_limited envs ms runId stk ttft maxRetries h
    maxRetries 0 none [] [] (by omega)
  unfold run_model_turn
  simpa using this

/-- A per-attempt environment that always rate-limits with a distinct
message. -/
def rlAttemptEnv (i : Nat) : AttemptEnv :=
  { tools := [], messagesValid := true
    completion := .error (.rateLimit ("rate limited " ++ toString i))
    stopFlag := fun _ => false, freshAssign := fun _ => ""
    freshPending := fun _ => "", parse := fun _ => [] }

/-- C8 witness at the default ceiling of 3: four attempts rate-limit, the
backoffs are 2, 4, 8 seconds, three retry notices fire, and the raised error
is the fourth (last) attempt's. -/
theorem rate_limited_turn_retries_and_raises_last_error_witness :
    run_model_turn rlAttemptEnv (some "r") true false 3 =
      { result := .error (.rateLimit ("rate limited " ++ toString 3))
        waits := (List.range 3).map (fun i => min 60 (2 ^ (i + 1)))
        events := (List.range 3).map
          (fun i => ⟨"rate_limit", i + 1, min 60 (2 ^ (i + 1))⟩) } :=
  rate_limited_turn_retries_and_raises_last_error 3 rlAttemptEnv
    (fun i => "rate limited " ++ toString i) (some "r") true false
    (fun i _ => ⟨rfl, rfl⟩)

/-- The fragments addressed to call index `i`, in arrival order. -/
def fragsAt (i : Nat) (ds : List Delta) : List Delta :=
  ds.filter (fun d => d.index == i)

/-- The non-empty `id` fragments of a delta sequence, in arrival order. -/
def idFrags (ds : List Delta) : List String :=
  ds.filterMap (fun d => if truthyStr d.id then some (d.id.getD "") else none)

/-- The first non-empty `id` fragment (empty string when none arrived). -/
def idFirst (ds : List Delta) : String :=
  (idFrags ds).headD ""

/-- Concatenation of the `name` fragments in arrival order. -/
def nameJoin (ds : List Delta) : String :=
  String.join (ds.map (fun d => if truthyStr d.name then d.name.getD "" else ""))

/-- Concatenation of the `arguments` fragments in arrival order. -/
def argsJoin (ds : List Delta) : String :=
  String.join (ds.map (fun d => if truthyStr d.dargs then d.dargs.getD "" else ""))

/-- Folding whole chunks into the buffer, exactly as the stream loop does. -/
def chunkFold (b : Buffer) (css : List Chunk) : Buffer :=
  css.foldl (fun b c => c.toolCalls.foldl updBuffer b) b

theorem join_append_single (xs : List String) (x : String) :
    String.join (xs ++ [x]) = String.join xs ++ x := by
  simp [String.join, List.foldl_append]

theorem lookup_map_set (buf : Buffer) (d : Delta) (i : Nat) :
    bufLookup (buf.map (fun p =>
        if p.1 = d.index then (p.1, applyDelta p.2 d) else p)) i =
      if i = d.index then (bufLookup buf i).map (fun a => applyDelta a d)
      else bufLookup buf i := by
  induction buf with
  | nil => simp [bufLookup]
  | cons p rest ih =>
    obtain ⟨k, v⟩ := p
    simp only [List.map_cons]
    by_cases hkj : k = d.index
    · rw [if_pos hkj]
      subst hkj
      by_cases hik : i = d.index
      · subst hik
        simp [bufLookup, ih]
      · simp [bufLookup, hik, ih]
    · rw [if_neg hkj]
      by_cases hik : i = k
      · subst hik
        simp [bufLookup, hkj, ih]
      · by_cases hij : i = d.index
        · subst hij
          simp [bufLookup, hik, ih]
        · simp [bufLookup, hik, hij, ih]

theorem lookup_append_buffer (l1 l2 : Buffer) (k : Nat) :
    bufLookup (l1 ++ l2) k =
      match bufLookup l1 k with
      | some v => some v
      | none => bufLookup l2 k := by
  induction l1 with
  | nil => simp [bufLookup]
  | cons p rest ih =>
    obtain ⟨k', v⟩ := p
    by_cases hk : k = k'
    · subst hk
      simp [bufLookup]
    · simp [bufLookup, hk, ih]

theorem lookup_updBuffer_self (buf : Buffer) (d : Delta) :
    bufLookup (updBuffer buf d) d.index =
      some (applyDelta ((bufLookup buf d.index).getD ⟨"", "", ""⟩) d) := by
  unfold updBuffer
  by_cases hmem : (bufLookup buf d.index).isSome
  · rw [if_pos hmem, lookup_map_set, if_pos rfl]
    obtain ⟨a, ha⟩ := Option.isSome_iff_exists.mp hmem
    simp [ha]
  · rw [if_neg hmem, lookup_map_set, if_pos rfl, lookup_append_buffer]
    have hnone : bufLookup buf d.index = none :=
      Option.not_isSome_iff_eq_none.mp hmem
    simp [hnone, bufLookup]

theorem lookup_updBuffer_ne (buf : Buffer) (d : Delta) (i : Nat)
    (h : i ≠ d.index) :
    bufLookup (updBuffer buf d) i = bufLookup buf i := by
  unfold updBuffer
  by_cases hmem : (bufLookup buf d.index).isSome
  · rw [if_pos hmem, lookup_map_set, if_neg h]
  · rw [if_neg hmem, lookup_map_set, if_neg h, lookup_append_buffer]
    have hone : bufLookup [(d.index, (⟨"", "", ""⟩ : Acc))] i = none := by
      simp [bufLookup, h]
    cases hb : bufLookup buf i <;> simp [hb, hone]

theorem truthy_getD_ne_empty {o : Option String} (ht : truthyStr o = true) :
    o.getD "" ≠ "" := by
  intro h
  unfold truthyStr at ht
  rw [h] at ht
  have hq : ("" : String).isEmpty = true := rfl
  rw [hq] at ht
  simp at ht

theorem idFrags_ne_empty (ds : List Delta) : ∀ s ∈ idFrags ds, s ≠ "" := by
  intro s hs
  unfold idFrags at hs
  rw [List.mem_filterMap] at hs
  obtain ⟨d, _, hmd⟩ := hs
  by_cases ht : truthyStr d.id
  · rw [if_pos ht] at hmd
    obtain rfl := Option.some.inj hmd
    exact truthy_getD_ne_empty ht
  · rw [if_neg ht] at hmd
    exact absurd hmd (by simp)

theorem idFirst_append_single (ds : List Delta) (d : Delta) :
    idFirst (ds ++ [d]) =
      if truthyStr d.id ∧ idFirst ds = "" then d.id.getD "" else idFirst ds := by
  unfold idFirst idFrags
  rw [List.filterMap_append]
  cases h : ds.filterMap
      (fun d => if truthyStr d.id then some (d.id.getD "") else none) with
  | nil =>
    by_cases ht : truthyStr d.id <;> simp [ht, List.filterMap]
  | cons a as =>
    have ha : a ≠ "" := idFrags_ne_empty ds a (by unfold idFrags; rw [h]; simp)
    simp [ha]

/-- Per-index characterization of the delta fold: after processing any delta
sequence, the buffer entry at index `i` exists iff some fragment addressed
`i`, its `id` is the first non-empty id fragment, and its `name` and
`arguments` are the concatenations of the fragments in arrival order. -/
theorem foldl_updBuffer_lookup (ds : List Delta) (i : Nat) :
    bufLookup (ds.foldl updBuffer []) i =
      if (fragsAt i ds).isEmpty then none
      else some ⟨idFirst (fragsAt i ds), nameJoin (fragsAt i ds),
                 argsJoin (fragsAt i ds)⟩ := by
  induction ds using List.reverseRecOn with
  | nil => simp [fragsAt, bufLookup]
  | append_singleton ds d ih =>
    rw [List.foldl_append, List.foldl_cons, List.foldl_nil]
    by_cases hd : d.index = i
    · have hself := lookup_updBuffer_self (ds.foldl updBuffer []) d
      rw [hd] at hself
      rw [hself, ih]
      have hfrag : fragsAt i (ds ++ [d]) = fragsAt i ds ++ [d] := by
        simp [fragsAt, List.filter_append, hd]
      rw [hfrag]
      by_cases hemp : (fragsAt i ds).isEmpty
      · have hnil : fragsAt i ds = [] := by simpa [List.isEmpty_iff] using hemp
        rw [if_pos hemp, hnil]
        simp only [List.nil_append, Option.getD_none]
        have : ¬ (([d] : List Delta).isEmpty = true) := by simp
        rw [if_neg this]
        unfold applyDelta idFirst idFrags nameJoin argsJoin
        by_cases ht : truthyStr d.id <;>
          simp [ht, String.join]
      · have hne : ¬ ((fragsAt i ds ++ [d]).isEmpty = true) := by simp
        rw [if_neg hemp, if_neg hne]
        simp only [Option.getD_some]
        have hid := idFirst_append_single (fragsAt i ds) d
        have hn : nameJoin (fragsAt i ds ++ [d]) =
            nameJoin (fragsAt i ds) ++
              (if truthyStr d.name then d.name.getD "" else "") := by
          unfold nameJoin
          rw [List.map_append, List.map_cons, List.map_nil, join_append_single]
        have ha2 : argsJoin (fragsAt i ds ++ [d]) =
            argsJoin (fragsAt i ds) ++
              (if truthyStr d.dargs then d.dargs.getD "" else "") := by
          unfold argsJoin
          rw [List.map_append, List.map_cons, List.map_nil, join_append_single]
        rw [hid, hn, ha2]
        rfl
    · rw [lookup_updBuffer_ne _ _ _ (fun h => hd h.symm)]
      have hfrag : fragsAt i (ds ++ [d]) = fragsAt i ds := by
        simp [fragsAt, List.filter_append, hd]
      rw [hfrag, ih]

/-- Chunk folding is the fold over the concatenated delta sequence. -/
theorem chunkFold_eq_join (css : List Chunk) (b : Buffer) :
    chunkFold b css = ((css.map Chunk.toolCalls).flatten).foldl updBuffer b := by
  induction css generalizing b with
  | nil => rfl
  | cons c rest ih =>
    show chunkFold (c.toolCalls.foldl updBuffer b) rest = _
    rw [ih, List.map_cons, List.flatten_cons, List.foldl_append]

/-- The stream loop's tool-call buffer is exactly the chunk fold (stated with
a falsy `run_id`, under which the cancellation poll is skipped, as the source
does when no run id is supplied). -/
theorem consumeStream_buffer (stopFlag : Nat → Bool) :
    ∀ (css : List Chunk) (i tokens : Nat) (cbuf : String) (buf : Buffer),
      (consumeStream none stopFlag css none i tokens cbuf buf).2.1 =
        chunkFold buf css := by
  intro css
  induction css with
  | nil => intro i tokens cbuf buf; rfl
  | cons c rest ih =>
    intro i tokens cbuf buf
    have htr : truthyStr (none : Option String) = false := rfl
    rw [consumeStream, if_neg (by simp [htr])]
    rw [ih]
    rfl

/-- C5: tool-call stream fragments accumulate per integer call index with
first-non-empty `id` and order-preserving concatenation of `name` and
`arguments`; consequently any two ways of splitting the same fragment
sequence across stream chunks produce the same buffer and the same finalized
tool calls (hence identical parsed arguments, whatever the argument decoder),
and the stream-consumption loop computes exactly this fold. -/
theorem toolcall_buffer_accumulation_chunk_invariant :
    (∀ (ds : List Delta) (i : Nat),
      bufLookup (ds.foldl updBuffer []) i =
        if (fragsAt i ds).isEmpty then none
        else some ⟨idFirst (fragsAt i ds), nameJoin (fragsAt i ds),
                   argsJoin (fragsAt i ds)⟩) ∧
    (∀ (css css' : List Chunk),
      (css.map Chunk.toolCalls).flatten = (css'.map Chunk.toolCalls).flatten →
      chunkFold [] css = chunkFold [] css' ∧
      ∀ (env : AttemptEnv) (cbuf : String) (t : Bool),
        finalizeTurn env cbuf (chunkFold [] css) t =
          finalizeTurn env cbuf (chunkFold [] css') t) ∧
    (∀ (stopFlag : Nat → Bool) (css : List Chunk) (i tokens : Nat)
        (cbuf : String) (buf : Buffer),
      (consumeStream none stopFlag css none i tokens cbuf buf).2.1 =
        chunkFold buf css) := by
  refine ⟨foldl_updBuffer_lookup, ?_, consumeStream_buffer⟩
  intro css css' hjoin
  have hfold : chunkFold [] css = chunkFold [] css' := by
    rw [chunkFold_eq_join, chunkFold_eq_join, hjoin]
  exact ⟨hfold, fun env cbuf t => by rw [hfold]⟩

/-- C5 witness: the delta sequence `{"a":` then `1}` for call index 0, split
across two chunks versus delivered in one chunk, produces identical buffers
(and hence identical finalized calls). -/
theorem toolcall_buffer_accumulation_chunk_invariant_witness :
    chunkFold []
        [{ content := none,
           toolCalls := [{ index := 0, id := some "call_1", name := some "get",
                           dargs := some "\x7b\"a\":" }] },
         { content := none,
           toolCalls := [{ index := 0, id := none, name := some "_pods",
                           dargs := some "1\x7d" }] }] =
      chunkFold []
        [{ content := none,
           toolCalls := [{ index := 0, id := some "call_1", name := some "get",
                           dargs := some "\x7b\"a\":" },
                         { index := 0, id := none, name := some "_pods",
                           dargs := some "1\x7d" }] }] :=
  (toolcall_buffer_accumulation_chunk_invariant.2.1 _ _ rfl).1

/-- After the entry node, `awaiting_approval` is always false (it is cleared
when set and untouched — hence already false — otherwise). -/
theorem entry_post_awaiting (s : RunState) :
    (applyUpdate s (entryUpdate s)).awaiting_approval = false := by
  unfold applyUpdate entryUpdate
  by_cases h : s.awaiting_approval = true <;> simp [h]

/-- The model node's graph update never carries an `awaiting_approval` key. -/
theorem modelGraphUpdate_awaiting (env : MNodeEnv) (s : RunState) :
    (modelGraphUpdate env s).awaiting_approval = none := rfl

/-- Every update produced by the gate loop either pauses — with
`awaiting_approval=true` and a non-empty `pending_tools` suffix — or
completes the batch with `awaiting_approval=false`. -/
theorem gateLoop_update_shape (genv : GateEnv) (decisions : List (String × Bool)) :
    ∀ (calls : List ToolCall) (idx : Nat) (msgs : List Msg) (invoked : List Nat),
      ((gateLoop genv decisions calls idx msgs invoked).1.awaiting_approval = some true ∧
        ∃ c rest, (gateLoop genv decisions calls idx msgs invoked).1.pending_tools =
          some (c :: rest)) ∨
      (gateLoop genv decisions calls idx msgs invoked).1.awaiting_approval = some false := by
  intro calls
  induction calls with
  | nil => intro idx msgs invoked; right; rfl
  | cons c rest ih =>
    intro idx msgs invoked
    rw [gateLoop]
    cases hcr : (genv.calls idx).crash with
    | some e => exact ih _ _ _
    | none =>
      rcases hex : execute (genv.calls idx).exec decisions c.name c.args c.id
          with ⟨out, inv⟩
      cases out with
      | pending pc pt => exact Or.inl ⟨rfl, c, rest, rfl⟩
      | ok blocks => exact ih _ _ _

/-- The inductive invariant for C1: `awaiting_approval` implies a non-empty
`pending_tools`, and the model and gate nodes are only ever entered with
`awaiting_approval` false. -/
def NodeInv (n : Node) (s : RunState) : Prop :=
  (s.awaiting_approval = true → s.pending_tools ≠ []) ∧
  ((n = Node.model ∨ n = Node.gate) → s.awaiting_approval = false)

theorem step_preserves_nodeInv (n : Node) (s : RunState) (n' : Node)
    (s' : RunState) (hs : Step n s n' s') (ih : NodeInv n s) : NodeInv n' s' := by
  cases hs with
    | entry s s' heq =>
      subst heq
      have hpost := entry_post_awaiting s
      refine ⟨fun hw => absurd (hpost ▸ hw) (by simp), fun _ => hpost⟩
    | model env s s' heq =>
      subst heq
      have hpre : s.awaiting_approval = false := ih.2 (Or.inl rfl)
      have hpost : (applyUpdate s (modelGraphUpdate env s)).awaiting_approval =
          s.awaiting_approval := rfl
      refine ⟨fun hw => absurd (hpost ▸ hw) (by simp [hpre]), fun _ => hpost ▸ hpre⟩
    | gate env s s' heq =>
      subst heq
      have hpre : s.awaiting_approval = false := ih.2 (Or.inr rfl)
      have hshape :
          ((gateNodeUpdate env s).1.awaiting_approval = some true ∧
            ∃ c rest, (gateNodeUpdate env s).1.pending_tools = some (c :: rest)) ∨
          (gateNodeUpdate env s).1.awaiting_approval = some false ∨
          (gateNodeUpdate env s).1.awaiting_approval = none := by
        unfold gateNodeUpdate
        cases env.outerCrash with
        | some e => right; right; rfl
        | none =>
          by_cases hemp : s.pending_tools.isEmpty
          · rw [if_pos hemp]; right; right; rfl
          · rw [if_neg hemp]
            rcases gateLoop_update_shape env s.approval_decisions
                s.pending_tools 0 [] [] with ⟨hw, hp⟩ | hw
            · exact Or.inl ⟨hw, hp⟩
            · exact Or.inr (Or.inl hw)
      rcases hshape with ⟨hw, cc, crest, hp⟩ | hw | hw
      · have hwa : (applyUpdate s (gateNodeUpdate env s).1).awaiting_approval = true := by
          unfold applyUpdate; rw [hw]; rfl
        have hpa : (applyUpdate s (gateNodeUpdate env s).1).pending_tools = cc :: crest := by
          unfold applyUpdate; rw [hp]; rfl
        refine ⟨fun _ => by rw [hpa]; simp, fun hc => ?_⟩
        have hroute : route_after_gate (applyUpdate s (gateNodeUpdate env s).1) = .final := by
          unfold route_after_gate; rw [hwa]; rfl
        rw [hroute] at hc
        rcases hc with h | h <;> cases h
      · have hwa : (applyUpdate s (gateNodeUpdate env s).1).awaiting_approval = false := by
          unfold applyUpdate; rw [hw]; rfl
        refine ⟨fun hcontra => absurd (hwa ▸ hcontra) (by simp), fun _ => hwa⟩
      · have hwa : (applyUpdate s (gateNodeUpdate env s).1).awaiting_approval = false := by
          unfold applyUpdate; rw [hw]; exact hpre
        refine ⟨fun hcontra => absurd (hwa ▸ hcontra) (by simp), fun _ => hwa⟩
    | final s s' heq =>
      subst heq
      refine ⟨ih.1, by intro hc; rcases hc with h | h <;> cases h⟩

theorem reachable_nodeInv (n : Node) (s : RunState) (h : Reachable n s) :
    NodeInv n s := by
  induction h with
  | init s hinv =>
    exact ⟨hinv, by intro hc; rcases hc with h | h <;> cases h⟩
  | step hr hs ih => exact step_preserves_nodeInv _ _ _ _ hs ih

/-- C1: for every RunState reachable by the turn state machine from an
initial state satisfying the invariant, `awaiting_approval = true` implies
`pending_tools` is non-empty (the gate's pause update carries the remaining
un-executed suffix including the triggering call). -/
theorem awaiting_approval_implies_pending_nonempty (n : Node) (s : RunState)
    (h : Reachable n s) : s.awaiting_approval = true → s.pending_tools ≠ [] :=
  (reachable_nodeInv n s h).1

/-- C1 witness: a concrete resumption-shaped initial state with
`awaiting_approval` set and one paused call. -/
theorem awaiting_approval_implies_pending_nonempty_witness :
    ({ run_id := "r", messages := [], awaiting_approval := true
       pending_tools := [{ id := some "c1", name := "apply_manifest", args := [] }] } :
      RunState).pending_tools ≠ [] :=
  awaiting_approval_implies_pending_nonempty .entry _
    (Reachable.init _ (fun _ => by simp)) rfl

/-- The gate loop, given a prefix of calls that all execute normally
followed by a call raising `ApprovalPending`, halts at that call: it returns
the messages accumulated for the prefix (one per processed call), the suffix
starting at the pausing call as the new `pending_tools`,
`awaiting_approval=true`, and records tool invocations only for prefix
positions. -/
theorem gateLoop_pause (genv : GateEnv) (decisions : List (String × Bool)) :
    ∀ (pre : List ToolCall) (idx : Nat) (msgs : List Msg) (invoked : List Nat)
      (c : ToolCall) (post : List ToolCall),
      (∀ j cj, pre.get? j = some cj →
        (genv.calls (idx + j)).crash = none ∧
        ∃ bs b, execute (genv.calls (idx + j)).exec decisions cj.name cj.args cj.id =
          (.ok bs, b)) →
      (genv.calls (idx + pre.length)).crash = none →
      (∃ pc pt b,
        execute (genv.calls (idx + pre.length)).exec decisions c.name c.args c.id =
          (.pending pc pt, b)) →
      ∃ msgs' invoked',
        gateLoop genv decisions (pre ++ c :: post) idx msgs invoked =
          ({ messages := some (msgs ++ msgs'), pending_tools := some (c :: post),
             awaiting_approval := some true, auto_continue_turns := some 0,
             suppress_pending_event := some false }, invoked ++ invoked') ∧
        msgs'.length = pre.length ∧
        ∀ k ∈ invoked', idx ≤ k ∧ k < idx + pre.length := by
  intro pre
  induction pre with
  | nil =>
    intro idx msgs invoked c post hpre hcrash hpend
    obtain ⟨pc, pt, b, hpend⟩ := hpend
    simp only [List.length_nil, Nat.add_zero] at hcrash hpend
    refine ⟨[], [], ?_, rfl, by simp⟩
    rw [List.nil_append, gateLoop, hcrash, hpend]
    simp
  | cons p pre' ih =>
    intro idx msgs invoked c post hpre hcrash hpend
    obtain ⟨hc0, bs, b, hex0⟩ := hpre 0 p rfl
    simp only [Nat.add_zero] at hc0 hex0
    have hpre' : ∀ j cj, pre'.get? j = some cj →
        (genv.calls (idx + 1 + j)).crash = none ∧
        ∃ bs2 b2, execute (genv.calls (idx + 1 + j)).exec decisions cj.name cj.args cj.id =
          (.ok bs2, b2) := by
      intro j cj hj
      have := hpre (j + 1) cj (by simpa using hj)
      have harith : idx + (j + 1) = idx + 1 + j := by omega
      rw [harith] at this
      exact this
    have hcrash' : (genv.calls (idx + 1 + pre'.length)).crash = none := by
      have harith : idx + (p :: pre').length = idx + 1 + pre'.length := by
        simp; omega
      rw [harith] at hcrash
      exact hcrash
    have hpend' : ∃ pc pt b2,
        execute (genv.calls (idx + 1 + pre'.length)).exec decisions c.name c.args c.id =
          (.pending pc pt, b2) := by
      have harith : idx + (p :: pre').length = idx + 1 + pre'.length := by
        simp; omega
      rw [harith] at hpend
      exact hpend
    obtain ⟨msgs', invoked', heq, hlen, hmem⟩ :=
      ih (idx + 1)
        (msgs ++ [{ role := "tool", tool_call_id := p.id, name := some p.name,
                    content := renderBlocks bs }])
        (invoked ++ if b then [idx] else []) c post hpre' hcrash' hpend'
    refine ⟨{ role := "tool", tool_call_id := p.id, name := some p.name,
              content := renderBlocks bs } :: msgs',
            (if b then [idx] else []) ++ invoked', ?_, by simp [hlen], ?_⟩
    · rw [List.cons_append, gateLoop]
      simp only [hc0, hex0]
      rw [heq]
      simp [List.append_assoc]
    · intro k hk
      rcases List.mem_append.mp hk with hk1 | hk2
      · have hkidx : k = idx := by
          cases b <;> simp_all
        subst hkidx
        constructor
        · omega
        · simp only [List.length_cons]
          omega
      · have := hmem k hk2
        constructor
        · omega
        · simp only [List.length_cons]
          omega

/-- C2: when the gate, processing the ordered batch, reaches the first call
that requires approval (injection succeeded, validation passed,
`need_approval` true) and has no recorded decision for its id — every
earlier call having executed normally — it stops there: the update carries
the tool-result messages accumulated for the already-processed prefix (one
per call), the un-processed suffix including the current call as the new
`pending_tools`, and `awaiting_approval=true`; neither the pausing call nor
any later call is executed (all recorded invocations lie in the prefix). -/
theorem gate_pauses_batch_at_unapproved_call (genv : GateEnv) (s : RunState)
    (pre post : List ToolCall) (c : ToolCall) (args2 : Args)
    (hbatch : s.pending_tools = pre ++ c :: post)
    (houter : genv.outerCrash = none)
    (hpre : ∀ j cj, pre.get? j = some cj →
      (genv.calls j).crash = none ∧
      ∃ bs b, execute (genv.calls j).exec s.approval_decisions cj.name cj.args cj.id =
        (.ok bs, b))
    (hcrash : (genv.calls pre.length).crash = none)
    (hinj : (genv.calls pre.length).exec.inject = .ok (args2, none))
    (hval : validateToolParameters c.name args2 (genv.calls pre.length).exec.metadata = none)
    (hneed : need_approval (some (fun _ => .ok (genv.calls pre.length).exec.metadata))
      c.name args2 = true)
    (hdec : s.approval_decisions.lookup
      (finalCallId c.id (genv.calls pre.length).exec.fresh) = none) :
    ∃ msgs' invoked',
      gateNodeUpdate genv s =
        ({ messages := some msgs', pending_tools := some (c :: post),
           awaiting_approval := some true, auto_continue_turns := some 0,
           suppress_pending_event := some false }, invoked') ∧
      msgs'.length = pre.length ∧
      ∀ k ∈ invoked', k < pre.length := by
  have hpend : execute (genv.calls pre.length).exec s.approval_decisions
      c.name c.args c.id =
      (.pending (finalCallId c.id (genv.calls pre.length).exec.fresh) c.name, false) := by
    unfold execute executeTry
    simp [hinj, hval, hneed, hdec]
  have hpre0 : ∀ j cj, pre.get? j = some cj →
      (genv.calls (0 + j)).crash = none ∧
      ∃ bs b, execute (genv.calls (0 + j)).exec s.approval_decisions cj.name cj.args cj.id =
        (.ok bs, b) := by
    intro j cj hj
    simpa [Nat.zero_add] using hpre j cj hj
  have hcrash0 : (genv.calls (0 + pre.length)).crash = none := by
    simpa [Nat.zero_add] using hcrash
  have hpend0 : ∃ pc pt b,
      execute (genv.calls (0 + pre.length)).exec s.approval_decisions c.name c.args c.id =
        (.pending pc pt, b) :=
    ⟨_, _, _, by simpa [Nat.zero_add] using hpend⟩
  obtain ⟨msgs', invoked', heq, hlen, hmem⟩ :=
    gateLoop_pause genv s.approval_decisions pre 0 [] [] c post hpre0 hcrash0 hpend0
  refine ⟨msgs', invoked', ?_, hlen, ?_⟩
  · unfold gateNodeUpdate
    rw [houter, hbatch]
    have hne : ¬ ((pre ++ c :: post).isEmpty = true) := by
      cases pre <;> simp
    rw [if_neg hne]
    rw [heq]
    simp
  · intro k hk
    have := hmem k hk
    omega

/-- Batch and environment for the C2 witness: a read-only first call that
executes, then a call requiring approval with no recorded decision. -/
def c2FirstCall : ToolCall := { id := some "a", name := "get_pods", args := [] }

def c2PauseCall : ToolCall := { id := some "b", name := "apply_manifest", args := [] }

def c2State : RunState :=
  { run_id := "r", messages := [], pending_tools := [c2FirstCall, c2PauseCall] }

def c2Genv : GateEnv :=
  { calls := fun idx =>
      if idx = 0 then { exec := readOnlyExecEnv }
      else { exec := { metadata := some writeMeta, inject := .ok ([], none),
                       callTool := fun _ => .ok (.nonDict "ran"), fresh := "u" } } }

/-- C2 witness: the concrete two-call batch pauses at the second call with
one accumulated message and only the first call invoked. -/
theorem gate_pauses_batch_at_unapproved_call_witness :
    ∃ msgs' invoked',
      gateNodeUpdate c2Genv c2State =
        ({ messages := some msgs', pending_tools := some [c2PauseCall],
           awaiting_approval := some true, auto_continue_turns := some 0,
           suppress_pending_event := some false }, invoked') ∧
      msgs'.length = [c2FirstCall].length ∧
      ∀ k ∈ invoked', k < [c2FirstCall].length :=
  gate_pauses_batch_at_unapproved_call c2Genv c2State [c2FirstCall] [] c2PauseCall []
    rfl rfl
    (by
      intro j cj hj
      match j, hj with
      | 0, h =>
        obtain rfl := Option.some.inj h
        exact ⟨rfl, [textBlock "pods listed"], true, by rfl⟩
      | j + 1, h => exact absurd h (by simp))
    rfl rfl rfl rfl rfl

/-- C3 scenario: a stream of 51 one-token content chunks with the
cancellation flag raised from the 31st chunk on (i.e. mid-stream after 30
generated tokens). -/
def c3Chunks : List Chunk := List.replicate 51 { content := some "t" }

def c3Attempt : AttemptEnv :=
  { tools := [], messagesValid := true
    completion := .ok (c3Chunks, none)
    stopFlag := fun i => 31 ≤ i
    freshAssign := fun _ => "u", freshPending := fun _ => "u"
    parse := fun _ => [] }

def c3State : RunState :=
  { run_id := "r", messages := [{ role := "user", content := "deploy the app" }]
    pending_tools := [] }

def c3Envs : Nat → StepEnv := fun _ =>
  { model := { turn := (run_model_turn (fun _ => c3Attempt) (some "r") true false).result
               judge := .user }
    gate := { calls := fun _ =>
      { exec := { metadata := none, inject := .ok ([], none)
                  callTool := fun _ => .error "unused", fresh := "u" } } } }

/-- C9 scenario: a successful text-only turn whose next-speaker judgment
answers `model`, starting from `auto_continue_turns = 0`. -/
def c9TurnOk : TurnOk :=
  { assistantMessages := [{ role := "assistant", content := "Working on it." }]
    toolCalls := [], ttftEmitted := false }

def c9Env : MNodeEnv := { turn := .ok c9TurnOk, judge := .model }

def c9State : RunState :=
  { run_id := "r", messages := [{ role := "user", content := "hi" }]
    pending_tools := [] }

/-- C3: with 30+ tokens already buffered, the cancellation poll does raise
`StopRequested` mid-stream (first conjunct), but `run_model_turn`'s
stream-error handler (`model_node.py` lines 265-268) swallows it because the
content buffer is non-empty, the turn finalizes normally, and when the turn
yields no tool calls, the judgment answers `user` and `auto_continue_turns`
is 0, the run proceeds to the final node — which performs no stop check —
and emits the completion event with `status="completed"`, not
`status="stopped"` as the claim requires. -/
theorem cancellation_midstream_swallowed_run_completes :
    (consumeStream (some "r") (fun i => 31 ≤ i) c3Chunks none 0 0 "" []).2.2 =
      .stopRequested ∧
    statusOf (runMachine c3Envs 25 0 .entry c3State) = "completed" := by
  constructor
  · rfl
  · rfl

/-- C9: the model node's own update increments `auto_continue_turns` to 1
when the judgment answers `model` (first conjunct, as the claim describes),
but `_model_node` (`graph.py` lines 130-151) does not forward the
`auto_continue_turns` key (second conjunct), so the run state's counter is
unchanged — it stays 0 instead of becoming 1 (third conjunct). -/
theorem auto_continue_increment_dropped_by_node_wrapper :
    (modelNodeCall c9Env c9State).auto_continue_turns = some 1 ∧
    (modelGraphUpdate c9Env c9State).auto_continue_turns = none ∧
    (applyUpdate c9State (modelGraphUpdate c9Env c9State)).auto_continue_turns = 0 := by
  refine ⟨?_, rfl, rfl⟩
  rfl

end Skyflo
